import Mathlib

/-!
Verification of the file-upload service core: the AES-CTR stream cipher
wrapper (`src/cryptography/cryptography.go`), the concurrent UID allocator
(`uid` package), and the HTTP upload/fetch handlers (`main` package).

Shallow embedding conventions:
* bytes are `Nat` (values produced by the code are < 256; XOR facts hold for
  all `Nat`);
* the AES block permutation is an abstract parameter
  `E : List Nat → List Nat` mapping a 16-byte block to a 16-byte block
  (hypothesis `∀ b, (E b).length = 16` where it matters);
* randomness (the IV, `rand.Uint64` draws) is passed in as an explicit
  argument: a single draw where the code draws once, a list of draws where
  the code loops drawing (`none` models the loop not returning within the
  supplied draws);
* a `context.Context` deadline is a `Bool` saying whether `ctx.Done()` is
  already closed when the `select` runs;
* the MinIO storage backend is an oracle value describing the outcomes of
  the `GetObject` / `Stat` / metadata-lookup calls the fetch handler makes.
-/

namespace FileUpload

/-- Big-endian increment of a byte string, least-significant byte first
after reversal: each byte is bumped mod 256 and the carry propagates while
the bumped byte wrapped to zero.  This is the counter step of Go's
`cipher.NewCTR`. -/
def ctrIncAux : List Nat → List Nat
  | [] => []
  | x :: xs =>
    if (x + 1) % 256 = 0 then 0 :: ctrIncAux xs else ((x + 1) % 256) :: xs

/-- Counter increment as performed by Go's CTR mode: the 16-byte counter is
treated as a big-endian integer and incremented with wraparound. -/
def ctrInc (ctr : List Nat) : List Nat := (ctrIncAux ctr.reverse).reverse

/-- The CTR keystream: block `i` is `E` applied to the IV incremented `i`
times; the concatenation is truncated to `n` bytes.  `cipher.NewCTR` with
initial counter `iv` produces exactly this byte sequence. -/
def keystream (E : List Nat → List Nat) (iv : List Nat) (n : Nat) : List Nat :=
  (List.flatten ((List.range ((n + 15) / 16)).map (fun i => E (ctrInc^[i] iv)))).take n

/-- Model of `EncryptStream` from `cryptography.go`: writes the freshly drawn 16-byte
IV, then copies the plaintext through `cipher.StreamWriter`, i.e. XORs it
byte by byte with the CTR keystream.  The random IV is the explicit
argument `iv`. -/
def encryptStream (E : List Nat → List Nat) (iv P : List Nat) : List Nat :=
  iv ++ List.zipWith Nat.xor P (keystream E iv P.length)

/-- Model of `DecryptStream` from `cryptography.go`: `io.ReadFull` demands 16 bytes
of IV (error when fewer are available), then the remaining bytes are XORed
with the keystream reconstructed from that IV. -/
def decryptStream (E : List Nat → List Nat) (input : List Nat) :
    Except String (List Nat) :=
  if input.length < 16 then Except.error "unable to read iv"
  else
    Except.ok (List.zipWith Nat.xor (input.drop 16)
      (keystream E (input.take 16) (input.drop 16).length))

/-- Length of the concatenation of `k` keystream blocks. -/
theorem join_blocks_length (E : List Nat → List Nat)
    (hE : ∀ b, (E b).length = 16) (iv : List Nat) (k : Nat) :
    (List.flatten ((List.range k).map (fun i => E (ctrInc^[i] iv)))).length
      = 16 * k := by
  induction k with
  | zero => simp
  | succ k ih =>
    rw [List.range_succ, List.map_append, List.flatten_append]
    simp [ih, hE, Nat.mul_succ]

/-- With a genuine block cipher (16-byte outputs) the keystream has exactly
the requested length. -/
theorem keystream_length (E : List Nat → List Nat)
    (hE : ∀ b, (E b).length = 16) (iv : List Nat) (n : Nat) :
    (keystream E iv n).length = n := by
  rw [keystream, List.length_take, join_blocks_length E hE]
  have h := Nat.div_add_mod (n + 15) 16
  have h2 : (n + 15) % 16 < 16 := Nat.mod_lt _ (by norm_num)
  omega

/-- XOR with the same keystream twice is the identity (as long as the
keystream is at least as long as the data). -/
theorem zipWith_xor_xor_cancel :
    ∀ (p ks : List Nat), p.length ≤ ks.length →
      List.zipWith Nat.xor (List.zipWith Nat.xor p ks) ks = p := by
  intro p
  induction p with
  | nil => intro ks _; simp
  | cons a p ih =>
    intro ks h
    cases ks with
    | nil => simp at h
    | cons b ks =>
      simp only [List.zipWith_cons_cons, List.cons.injEq]
      exact ⟨Nat.xor_cancel_right b a, ih ks (by simpa using h)⟩

/-- Decomposition of the `EncryptStream` output into IV and body; shared by
the layout and round-trip theorems. -/
theorem encryptStream_decomp (E : List Nat → List Nat)
    (hE : ∀ b, (E b).length = 16) (iv P : List Nat) (hiv : iv.length = 16) :
    (encryptStream E iv P).length = 16 + P.length ∧
    (encryptStream E iv P).take 16 = iv ∧
    (encryptStream E iv P).drop 16
      = List.zipWith Nat.xor P (keystream E iv P.length) := by
  have hks := keystream_length E hE iv P.length
  have hlen : (List.zipWith Nat.xor P (keystream E iv P.length)).length
      = P.length := by
    rw [List.length_zipWith, hks, Nat.min_self]
  refine ⟨?_, ?_, ?_⟩
  · rw [encryptStream, List.length_append, hiv, hlen]
  · rw [encryptStream, ← hiv, List.take_left]
  · rw [encryptStream, ← hiv, List.drop_left]

/-- C4: `EncryptStream` emits the 16-byte IV first and then exactly the
CTR-keystream XOR of the plaintext: the output is `16 + |P|` bytes long,
its first 16 bytes are the IV, and the remainder is the keystream XOR. -/
theorem encryptStream_layout (E : List Nat → List Nat)
    (hE : ∀ b, (E b).length = 16) (iv P : List Nat) (hiv : iv.length = 16) :
    (encryptStream E iv P).length = 16 + P.length ∧
    (encryptStream E iv P).take 16 = iv ∧
    (encryptStream E iv P).drop 16
      = List.zipWith Nat.xor P (keystream E iv P.length) :=
  encryptStream_decomp E hE iv P hiv

/-- Witness for `encryptStream_layout` at a concrete block function, IV and
plaintext. -/
theorem encryptStream_layout_witness :
    (encryptStream (fun _ => List.replicate 16 9) (List.replicate 16 0)
        [1, 2, 3]).length = 16 + ([1, 2, 3] : List Nat).length ∧
    (encryptStream (fun _ => List.replicate 16 9) (List.replicate 16 0)
        [1, 2, 3]).take 16 = List.replicate 16 0 ∧
    (encryptStream (fun _ => List.replicate 16 9) (List.replicate 16 0)
        [1, 2, 3]).drop 16
      = List.zipWith Nat.xor [1, 2, 3]
          (keystream (fun _ => List.replicate 16 9) (List.replicate 16 0) 3) :=
  encryptStream_layout (fun _ => List.replicate 16 9)
    (fun _ => List.length_replicate 16 9) (List.replicate 16 0) [1, 2, 3]
    (List.length_replicate 16 0)

/-- C3: round trip — decrypting the exact byte stream that `EncryptStream`
produced, with the same block cipher, recovers the plaintext, for every
plaintext (the empty one included) and every 16-byte IV. -/
theorem decrypt_encrypt_roundtrip (E : List Nat → List Nat)
    (hE : ∀ b, (E b).length = 16) (iv P : List Nat) (hiv : iv.length = 16) :
    decryptStream E (encryptStream E iv P) = Except.ok P := by
  obtain ⟨hlen, htake, hdrop⟩ := encryptStream_decomp E hE iv P hiv
  have hks := keystream_length E hE iv P.length
  have hzlen : ((encryptStream E iv P).drop 16).length = P.length := by
    rw [hdrop, List.length_zipWith, hks, Nat.min_self]
  rw [decryptStream, if_neg (by omega), htake, hdrop, List.length_zipWith,
    hks, Nat.min_self]
  exact congrArg Except.ok
    (zipWith_xor_xor_cancel P (keystream E iv P.length) (by rw [hks]))

/-- Witness for `decrypt_encrypt_roundtrip` on a concrete block function,
IV and plaintext. -/
theorem decrypt_encrypt_roundtrip_witness :
    decryptStream (fun _ => List.replicate 16 9)
        (encryptStream (fun _ => List.replicate 16 9) (List.replicate 16 0)
          [1, 2, 3])
      = Except.ok [1, 2, 3] :=
  decrypt_encrypt_roundtrip (fun _ => List.replicate 16 9)
    (fun _ => List.length_replicate 16 9) (List.replicate 16 0) [1, 2, 3]
    (List.length_replicate 16 0)

/-- The allocator's in-memory set `uids map[uint64]bool`, embedded as its
membership function. -/
abbrev UidSet : Type := Nat → Bool

/-- Errors the `uid` package produces: the `errors.New` timeout of
`GenerateAndAdd` and the `fmt.Errorf` conflict of `AddUid`, which carries
the rejected uid and the recommended alternative. -/
inductive UidError : Type where
  | timeout : UidError
  | conflict (uid recommended : Nat) : UidError
deriving DecidableEq

/-- Map insertion `t.uids[uid] = true`. -/
def insertUid (t : UidSet) (uid : Nat) : UidSet :=
  fun x => if x = uid then true else t x

/-- Model of `AddUid` from the `uid` package.  The caller's lock is implicit (the
whole call is one atomic step on the set).  When the candidate is taken the
code loops `recommended := rand.Uint64()` until the draw is fresh; the
successive draws are the explicit list `draws`, and `none` models the loop
still running after all of them. -/
def addUid (t : UidSet) (uid : Nat) (draws : List Nat) :
    Option ((Nat × Option UidError) × UidSet) :=
  if t uid then
    match draws.find? (fun d => ! t d) with
    | some recommended => some ((0, some (UidError.conflict uid recommended)), t)
    | none => none
  else
    some ((uid, none), insertUid t uid)

/-- Model of `Init` from the `uid` package: a fresh empty map, then one insertion
per element of the initial array (duplicates collapse). The previous state
of the tracker is discarded. -/
def uidInit (_prior : UidSet) (initialElems : List Nat) : UidSet :=
  initialElems.foldl (fun s e => insertUid s e) (fun _ => false)

/-- Model of `GenerateAndAdd` from the `uid` package.  `ctxDone` says whether
`ctx.Done()` is already closed when the `select` runs; `draw` is the one
`rand.Uint64()` the default branch makes.  Note the fall-through
`return 0, nil` when the draw collides. -/
def generateAndAdd (t : UidSet) (ctxDone : Bool) (draw : Nat) :
    (Nat × Option UidError) × UidSet :=
  if ctxDone then ((0, some UidError.timeout), t)
  else if t draw then ((0, none), t)
  else ((draw, none), insertUid t draw)

/-- Model of `Contains` from the `uid` package. -/
def uidContains (t : UidSet) (elem : Nat) : Bool := t elem

/-- Membership after `uidInit` is membership in the initial list. -/
theorem uidInit_foldl (initialElems : List Nat) :
    ∀ (s : UidSet) (x : Nat),
      (initialElems.foldl (fun s e => insertUid s e) s) x
        = (s x || initialElems.contains x) := by
  induction initialElems with
  | nil => intro s x; simp
  | cons e rest ih =>
    intro s x
    rw [List.foldl_cons, ih, List.contains_cons]
    by_cases hx : x = e
    · simp [insertUid, hx]
    · have hbe : (x == e) = false := beq_eq_false_iff_ne.mpr hx
      simp [insertUid, hx, hbe]

/-- C7: after `Init` with any list `S` (duplicates allowed) and from any
prior tracker state, `Contains x` is true exactly for the elements of `S`:
the set equals the distinct elements of `S`. -/
theorem uidInit_contains (prior : UidSet) (S : List Nat) (x : Nat) :
    uidContains (uidInit prior S) x = S.contains x := by
  rw [uidContains, uidInit, uidInit_foldl]
  simp

/-- C6: `GenerateAndAdd` under an already-elapsed deadline returns the
timeout error and value 0, and the set is exactly unchanged, whatever the
state and whatever the random draw would have been. -/
theorem generateAndAdd_expired_deadline (t : UidSet) (draw : Nat) :
    generateAndAdd t true draw = ((0, some UidError.timeout), t) := rfl

/-- C1 (code bug evaluation): with UID 7 reserved, a live deadline and the
random draw colliding on 7, `GenerateAndAdd` returns value 0 with a nil
error, yet reserves nothing: 0 is not in the set after the call, so the
nil-error result is not a valid newly reserved UID. -/
theorem generateAndAdd_collision_nil_error :
    generateAndAdd (fun x => x == 7) false 7
        = ((0, none), fun x => x == 7) ∧
    uidContains (generateAndAdd (fun x => x == 7) false 7).2 0 = false := by
  exact ⟨rfl, rfl⟩

/-- C2: `AddUid` on a free candidate reserves it and returns it with a nil
error; on a reserved candidate, whenever the call returns, it returns a
Conflict error carrying a recommendation that is not currently reserved,
and the set is exactly unchanged (the recommendation is not reserved
either). -/
theorem addUid_spec (t : UidSet) (uid : Nat) (draws : List Nat) :
    (t uid = false →
      addUid t uid draws = some ((uid, none), insertUid t uid)) ∧
    (t uid = true →
      addUid t uid draws = none ∨
      ∃ recommended,
        addUid t uid draws
            = some ((0, some (UidError.conflict uid recommended)), t) ∧
        t recommended = false) := by
  constructor
  · intro h; simp [addUid, h]
  · intro h
    cases hf : draws.find? (fun d => ! t d) with
    | none => left; simp [addUid, h, hf]
    | some r =>
      right
      refine ⟨r, by simp [addUid, h, hf], ?_⟩
      have := List.find?_some hf
      simpa using this

/-- Witness for `addUid_spec`: both branches evaluated on the concrete set
that reserves exactly UID 5. -/
theorem addUid_spec_witness :
    addUid (fun x => x == 5) 3 []
        = some ((3, none), insertUid (fun x => x == 5) 3) ∧
    (addUid (fun x => x == 5) 5 [9] = none ∨
      ∃ recommended,
        addUid (fun x => x == 5) 5 [9]
            = some ((0, some (UidError.conflict 5 recommended)),
                fun x => x == 5) ∧
        (fun x => x == 5) recommended = false) :=
  ⟨(addUid_spec (fun x => x == 5) 3 []).1 rfl,
   (addUid_spec (fun x => x == 5) 5 [9]).2 rfl⟩

/-- C10: the recommendation loop of `AddUid` on a reserved candidate
terminates only when an unreserved value exists — with every 64-bit value
reserved, no sequence of 64-bit draws makes it return — and no constant
draw budget suffices, since even with a non-full set every finite draw
sequence can keep colliding. -/
theorem addUid_loop_unbounded :
    (∀ (t : UidSet) (uid : Nat) (draws : List Nat),
        (∀ d, d < 2 ^ 64 → t d = true) → t uid = true →
        (∀ d ∈ draws, d < 2 ^ 64) → addUid t uid draws = none) ∧
    (∀ n : Nat, ∃ (t : UidSet) (uid : Nat) (draws : List Nat),
        t uid = true ∧ (∃ d, d < 2 ^ 64 ∧ t d = false) ∧
        draws.length = n ∧ addUid t uid draws = none) := by
  constructor
  · intro t uid draws hfull huid hdraws
    have hf : draws.find? (fun d => ! t d) = none :=
      List.find?_eq_none.mpr (fun x hx => by
        simp [hfull x (hdraws x hx)])
    simp [addUid, huid, hf]
  · intro n
    refine ⟨fun x => x == 0, 0, List.replicate n 0, rfl,
      ⟨1, by norm_num, rfl⟩, List.length_replicate n 0, ?_⟩
    have hf : (List.replicate n 0).find? (fun d => ! (d == 0)) = none :=
      List.find?_eq_none.mpr (fun x hx => by
        rw [List.eq_of_mem_replicate hx]; simp)
    simp [addUid, hf]

/-- Witness for `addUid_loop_unbounded`: the full set with draw list `[0]`
never returns, and a two-draw budget fails on a non-full set. -/
theorem addUid_loop_unbounded_witness :
    addUid (fun _ => true) 0 [0] = none ∧
    (∃ (t : UidSet) (uid : Nat) (draws : List Nat),
        t uid = true ∧ (∃ d, d < 2 ^ 64 ∧ t d = false) ∧
        draws.length = 2 ∧ addUid t uid draws = none) :=
  ⟨addUid_loop_unbounded.1 (fun _ => true) 0 [0] (fun _ _ => rfl) rfl
      (List.forall_mem_singleton.mpr (by norm_num)),
   addUid_loop_unbounded.2 2⟩

/-- Value of one hex digit, as accepted by Go's `encoding/hex`. -/
def hexDigitVal (c : Char) : Option Nat :=
  if '0' ≤ c ∧ c ≤ '9' then some (c.toNat - 48)
  else if 'a' ≤ c ∧ c ≤ 'f' then some (c.toNat - 97 + 10)
  else if 'A' ≤ c ∧ c ≤ 'F' then some (c.toNat - 65 + 10)
  else none

/-- Go's `hex.DecodeString`: decodes digit pairs left to right and stops at
the first invalid pair or at a trailing odd digit; it returns the bytes
decoded so far together with success or failure.  Go reports the failure as
a non-nil error and still hands back the decoded prefix. -/
def hexDecodePartial : List Char → List Nat × Bool
  | [] => ([], true)
  | [_] => ([], false)
  | hi :: lo :: rest =>
    match hexDigitVal hi, hexDigitVal lo with
    | some h, some l =>
      let r := hexDecodePartial rest
      ((h * 16 + l) :: r.1, r.2)
    | _, _ => ([], false)

/-- Result of `StreamCipher.Init`: either a constructed cipher context over
the decoded key bytes, or the `panic` raised when `aes.NewCipher`
rejects the key length. -/
inductive InitOutcome : Type where
  | ok (keyBytes : List Nat) : InitOutcome
  | panicked : InitOutcome
deriving DecidableEq

/-- Model of `StreamCipher.Init` from `cryptography.go`: the hex decode error is
discarded (`key, _ := hex.DecodeString(hexKey)`), and `aes.NewCipher`
panics exactly when the byte length is not 16, 24 or 32. -/
def streamCipherInit (hexKey : String) : InitOutcome :=
  if (hexDecodePartial hexKey.toList).1.length = 16 ∨
      (hexDecodePartial hexKey.toList).1.length = 24 ∨
      (hexDecodePartial hexKey.toList).1.length = 32 then
    InitOutcome.ok (hexDecodePartial hexKey.toList).1
  else InitOutcome.panicked

/-- C8 counterexample: the key of 32 `a` digits followed by `zz` is not
valid hex, yet `Init` succeeds — the ignored decode error leaves the
16-byte decoded prefix, which `aes.NewCipher` accepts — so the cipher
context is constructed from malformed key material. -/
theorem streamCipherInit_accepts_malformed_key :
    (hexDecodePartial
        ("aaaaaaaaaaaaaaaaaaaaaaaaaaaaaaaazz" : String).toList).2 = false ∧
    streamCipherInit "aaaaaaaaaaaaaaaaaaaaaaaaaaaaaaaazz"
      = InitOutcome.ok (List.replicate 16 170) := by
  exact ⟨rfl, rfl⟩

/-- C8 (amended): `Init` panics exactly when the byte prefix decoded before
the first hex error is not of AES key length 16, 24 or 32; every
well-formed hex key of a valid length is accepted with exactly its decoded
bytes.  Malformedness itself is not checked. -/
theorem streamCipherInit_spec (s : String) :
    (streamCipherInit s = InitOutcome.panicked ↔
      ¬((hexDecodePartial s.toList).1.length = 16 ∨
        (hexDecodePartial s.toList).1.length = 24 ∨
        (hexDecodePartial s.toList).1.length = 32)) ∧
    ((hexDecodePartial s.toList).2 = true →
      ((hexDecodePartial s.toList).1.length = 16 ∨
       (hexDecodePartial s.toList).1.length = 24 ∨
       (hexDecodePartial s.toList).1.length = 32) →
      streamCipherInit s = InitOutcome.ok (hexDecodePartial s.toList).1) := by
  constructor
  · by_cases h : (hexDecodePartial s.toList).1.length = 16 ∨
        (hexDecodePartial s.toList).1.length = 24 ∨
        (hexDecodePartial s.toList).1.length = 32
    · rw [streamCipherInit, if_pos h]
      exact iff_of_false (by simp) (not_not_intro h)
    · rw [streamCipherInit, if_neg h]
      exact iff_of_true rfl h
  · intro _ h
    rw [streamCipherInit, if_pos h]

/-- Witness for `streamCipherInit_spec`: the repository test key (64 hex
digits, 32 bytes) is accepted, and the two-digit key `00` panics. -/
theorem streamCipherInit_spec_witness :
    streamCipherInit
        "6368616e676520746869732070617373776f726420746f206120736563726574"
      = InitOutcome.ok (hexDecodePartial
          ("6368616e676520746869732070617373776f726420746f206120736563726574"
            : String).toList).1 ∧
    streamCipherInit "00" = InitOutcome.panicked :=
  ⟨(streamCipherInit_spec
      "6368616e676520746869732070617373776f726420746f206120736563726574").2
      (by decide) (by decide),
   (streamCipherInit_spec "00").1.mpr (by decide)⟩

/-- Go's `strconv.ParseInt(s, 10, 64)`: optional sign, at least one decimal
digit, value within the signed 64-bit range. -/
def parseInt64 (s : String) : Option Int :=
  match s.toList with
  | [] => none
  | c :: rest =>
    let signDigits : Bool × List Char :=
      if c = '-' then (true, rest)
      else if c = '+' then (false, rest)
      else (false, c :: rest)
    if signDigits.2 = [] then none
    else if signDigits.2.all (fun ch => ch.isDigit) then
      let v : Nat := signDigits.2.foldl (fun a ch => a * 10 + (ch.toNat - 48)) 0
      if signDigits.1 then
        if v ≤ 2 ^ 63 then some (-(v : Int)) else none
      else
        if v < 2 ^ 63 then some ((v : Int)) else none
    else none

/-- What the first statements of `uploadHandler` do with the `File-Size`
header values: `r.Header["File-Size"][0]` indexes the slice with no length
check, so an absent header (empty slice) panics; a present but unparseable
value draws the 412 response; otherwise the parsed size flows on. -/
inductive UploadStep : Type where
  | panicked : UploadStep
  | errorResponse (status : Nat) (msg : String) : UploadStep
  | sized (fileSize : Int) : UploadStep
deriving DecidableEq

/-- The `File-Size` handling of `uploadHandler` in the `main` package. -/
def uploadSizeCheck (fileSizeHeader : List String) : UploadStep :=
  match fileSizeHeader with
  | [] => UploadStep.panicked
  | v :: _ =>
    match parseInt64 v with
    | none => UploadStep.errorResponse 412
        "File-Size in header should be the file size in bytes"
    | some n => UploadStep.sized n

/-- C9: a request with no `File-Size` header panics on the unchecked slice
index instead of drawing an HTTP error; the 412 malformed-size response
occurs only when a header value is present and fails to parse. -/
theorem uploadSizeCheck_missing_header :
    uploadSizeCheck [] = UploadStep.panicked ∧
    ∀ (h : List String) (msg : String),
      uploadSizeCheck h = UploadStep.errorResponse 412 msg →
      ∃ v rest, h = v :: rest ∧ parseInt64 v = none := by
  refine ⟨rfl, ?_⟩
  intro h msg hresp
  match h with
  | [] => exact absurd hresp (by simp [uploadSizeCheck])
  | v :: rest =>
    refine ⟨v, rest, rfl, ?_⟩
    cases hp : parseInt64 v with
    | none => rfl
    | some n =>
      rw [uploadSizeCheck, hp] at hresp
      exact absurd hresp (by simp)

/-- Witness for `uploadSizeCheck_missing_header`: the header value `x`
draws the 412 response and is indeed present and unparseable. -/
theorem uploadSizeCheck_missing_header_witness :
    uploadSizeCheck [] = UploadStep.panicked ∧
    ∃ v rest, (["x"] : List String) = v :: rest ∧ parseInt64 v = none :=
  ⟨uploadSizeCheck_missing_header.1,
   uploadSizeCheck_missing_header.2 ["x"]
     "File-Size in header should be the file size in bytes" (by decide)⟩

/-- Go's `strconv.ParseUint(s, 10, 64)`: at least one decimal digit, no
sign, value below `2^64`. -/
def parseUint64 (s : String) : Option Nat :=
  if s.toList = [] then none
  else if s.toList.all (fun c => c.isDigit) then
    let v : Nat := s.toList.foldl (fun a c => a * 10 + (c.toNat - 48)) 0
    if v < 2 ^ 64 then some v else none
  else none

/-- Result of `objectInfo.Stat()` when it succeeds: the `Filename` lookup in
`UserMetadata` is `none` when the entry is absent. -/
structure StatInfo : Type where
  filename : Option String
deriving DecidableEq

/-- Outcome of `minioClient.GetObject` when it succeeds: the metadata query
outcome and the ciphertext byte stream the object yields. -/
structure FetchedObject : Type where
  stat : Option StatInfo
  body : List Nat
deriving DecidableEq

/-- The collaborators `fetchAndDecryptHandler` consults: the UID tracker
and the storage backend (`none` models `GetObject` returning an error). -/
structure FetchEnv : Type where
  tracker : UidSet
  getObject : Option FetchedObject

/-- What the fetch handler sends: the final HTTP status, the
`Content-Disposition` header if it was set, and whether a storage
`GetObject` call was made. -/
structure FetchResponse : Type where
  status : Nat
  contentDisposition : Option String
  storageGetCalled : Bool
deriving DecidableEq

/-- Model of `fetchAndDecryptHandler` from the `main` package, branch for branch:
400 on missing or unparseable `uid` query value, 404 when the tracker does
not contain it (before any storage call), 500 when `GetObject` errors, 408
when `Stat` errors, 408 when the `Filename` metadata entry is absent, then
the attachment header is set and `DecryptStream` runs — 500 on its error,
success otherwise.  `r.URL.Query().Get` yields `""` for an absent
parameter. -/
def fetchAndDecryptHandler (E : List Nat → List Nat) (env : FetchEnv)
    (uidQuery : Option String) : FetchResponse :=
  let uidStr := uidQuery.getD ""
  if uidStr = "" then ⟨400, none, false⟩
  else
    match parseUint64 uidStr with
    | none => ⟨400, none, false⟩
    | some uid =>
      if ! uidContains env.tracker uid then ⟨404, none, false⟩
      else
        match env.getObject with
        | none => ⟨500, none, true⟩
        | some obj =>
          match obj.stat with
          | none => ⟨408, none, true⟩
          | some info =>
            match info.filename with
            | none => ⟨408, none, true⟩
            | some filename =>
              match decryptStream E obj.body with
              | Except.error _ =>
                ⟨500, some ("attachment; filename=\"" ++ filename ++ "\""),
                  true⟩
              | Except.ok _ =>
                ⟨200, some ("attachment; filename=\"" ++ filename ++ "\""),
                  true⟩

/-- C5 counterexample: UID 5 is tracked and `GetObject` succeeds but
`Stat` fails — a storage failure — and the handler answers 408, not the
500 the claim requires. -/
theorem fetch_stat_failure_answers_408 :
    (fetchAndDecryptHandler (fun _ => List.replicate 16 0)
        ⟨fun x => x == 5, some ⟨none, []⟩⟩ (some "5")).status = 408 ∧
    (408 : Nat) ≠ 500 := by
  exact ⟨rfl, by decide⟩

/-- C5 (amended): 400 when the uid query value is missing or unparseable;
404 when the UID is untracked, with no storage get; 500 when `GetObject`
fails; 408 (not 500) when `Stat` fails or the `Filename` metadata entry is
absent; 500 when decryption fails; otherwise 200 with the attachment
`Content-Disposition` header carrying the stored filename. -/
theorem fetchHandler_spec (E : List Nat → List Nat) (env : FetchEnv)
    (uidQuery : Option String) :
    (uidQuery.getD "" = "" →
      fetchAndDecryptHandler E env uidQuery = ⟨400, none, false⟩) ∧
    (∀ s, uidQuery = some s → parseUint64 s = none →
      fetchAndDecryptHandler E env uidQuery = ⟨400, none, false⟩) ∧
    (∀ s uid, uidQuery = some s → parseUint64 s = some uid →
      uidContains env.tracker uid = false →
      fetchAndDecryptHandler E env uidQuery = ⟨404, none, false⟩) ∧
    (∀ s uid, uidQuery = some s → parseUint64 s = some uid →
      uidContains env.tracker uid = true → env.getObject = none →
      fetchAndDecryptHandler E env uidQuery = ⟨500, none, true⟩) ∧
    (∀ s uid obj, uidQuery = some s → parseUint64 s = some uid →
      uidContains env.tracker uid = true → env.getObject = some obj →
      (obj.stat = none ∨ ∃ info, obj.stat = some info ∧
        info.filename = none) →
      fetchAndDecryptHandler E env uidQuery = ⟨408, none, true⟩) ∧
    (∀ s uid obj info filename, uidQuery = some s →
      parseUint64 s = some uid → uidContains env.tracker uid = true →
      env.getObject = some obj → obj.stat = some info →
      info.filename = some filename →
      ((∃ e, decryptStream E obj.body = Except.error e) →
        fetchAndDecryptHandler E env uidQuery
          = ⟨500, some ("attachment; filename=\"" ++ filename ++ "\""),
              true⟩) ∧
      ((∃ pt, decryptStream E obj.body = Except.ok pt) →
        fetchAndDecryptHandler E env uidQuery
          = ⟨200, some ("attachment; filename=\"" ++ filename ++ "\""),
              true⟩)) := by
  have hempty : parseUint64 "" = none := rfl
  refine ⟨?_, ?_, ?_, ?_, ?_, ?_⟩
  · intro h
    simp [fetchAndDecryptHandler, h]
  · rintro s rfl hp
    by_cases hs : s = ""
    · simp [fetchAndDecryptHandler, hs]
    · simp [fetchAndDecryptHandler, Option.getD, hs, hp]
  · rintro s uid rfl hp ht
    have hs : s ≠ "" := fun h => by rw [h, hempty] at hp; exact Option.noConfusion hp
    simp [fetchAndDecryptHandler, Option.getD, hs, hp, uidContains] at *
    simp [ht]
  · rintro s uid rfl hp ht hg
    have hs : s ≠ "" := fun h => by rw [h, hempty] at hp; exact Option.noConfusion hp
    have ht' : env.tracker uid = true := ht
    simp [fetchAndDecryptHandler, Option.getD, hs, hp, ht, ht', hg]
  · rintro s uid obj rfl hp ht hg hstat
    have hs : s ≠ "" := fun h => by rw [h, hempty] at hp; exact Option.noConfusion hp
    have ht' : env.tracker uid = true := ht
    rcases hstat with h1 | ⟨info, h1, h2⟩
    · simp [fetchAndDecryptHandler, Option.getD, hs, hp, ht, ht', hg, h1]
    · simp [fetchAndDecryptHandler, Option.getD, hs, hp, ht, ht', hg, h1, h2]
  · rintro s uid obj info filename rfl hp ht hg h1 h2
    have hs : s ≠ "" := fun h => by rw [h, hempty] at hp; exact Option.noConfusion hp
    have ht' : env.tracker uid = true := ht
    constructor
    · rintro ⟨e, hd⟩
      simp [fetchAndDecryptHandler, Option.getD, hs, hp, ht, ht', hg, h1, h2, hd]
    · rintro ⟨pt, hd⟩
      simp [fetchAndDecryptHandler, Option.getD, hs, hp, ht, ht', hg, h1, h2, hd]

/-- Witness for `fetchHandler_spec`: the 404 case on an untracked UID and
the 200 case on a tracked one whose 16-byte object decrypts. -/
theorem fetchHandler_spec_witness :
    fetchAndDecryptHandler (fun _ => List.replicate 16 0)
        ⟨fun _ => false, none⟩ (some "9") = ⟨404, none, false⟩ ∧
    fetchAndDecryptHandler (fun _ => List.replicate 16 0)
        ⟨fun x => x == 5, some ⟨some ⟨some "a.txt"⟩, List.replicate 16 0⟩⟩
        (some "5")
      = ⟨200, some ("attachment; filename=\"" ++ "a.txt" ++ "\""), true⟩ :=
  ⟨(fetchHandler_spec (fun _ => List.replicate 16 0) ⟨fun _ => false, none⟩
      (some "9")).2.2.1 "9" 9 rfl rfl rfl,
   ((fetchHandler_spec (fun _ => List.replicate 16 0)
      ⟨fun x => x == 5, some ⟨some ⟨some "a.txt"⟩, List.replicate 16 0⟩⟩
      (some "5")).2.2.2.2.2 "5" 5 ⟨some ⟨some "a.txt"⟩, List.replicate 16 0⟩
      ⟨some "a.txt"⟩ "a.txt" rfl rfl rfl rfl rfl rfl).2
      ⟨[], rfl⟩⟩

end FileUpload
